import Mathlib

/-!
Verification of the hybrid retrieval core of the 5EnterpriseRag repository.

The definitions below are a shallow embedding of `src/vector_store.py` and
`src/config.py`:

* `tokenize`, `bump`, `freqStep`, `wordFreq`, `sortedItems`, `sparseVectorize`
  embed `QdrantVectorStore._generate_sparse_vectors` (vector_store.py 145-180).
  Python's per-process salted string hash is modelled as an explicit parameter
  `h : String → Int`; `hash(word) % 100000` becomes `h w % 100000` (Python's
  floored modulo with a positive modulus agrees with `Int.emod`).  The weights
  `float(freq)` are floats of small term counts, represented exactly by the
  counts themselves.
* `ensureCollection` embeds `QdrantVectorStore._ensure_collection`
  (vector_store.py 43-62).
* `mkRecursiveCharacterTextSplitter` embeds the splitter construction in
  `add_documents` (vector_store.py 79-84) together with the parameter check the
  text-splitter dependency performs.
* `buildHybridRequest`, `hybrid_search` embed `QdrantVectorStore.hybrid_search`
  (vector_store.py 182-242); the Qdrant backend executing the request is
  modelled from the spec (sections 4.4 and 4.5), with float scores represented
  as exact unnormalized integer fractions (`Score`).
-/

namespace EnterpriseRag

/-! ### Settings (src/config.py) -/

/-- config.py line 31: `top_k_results: int = 5`. -/
def settingsTopKResults : Nat := 5

/-- config.py line 34: `chunk_size: int = 1000`. -/
def settingsChunkSize : Nat := 1000

/-- config.py line 35: `chunk_overlap: int = 200`. -/
def settingsChunkOverlap : Nat := 200

/-! ### Sparse vectorizer (vector_store.py 145-180) -/

/-- Accumulator-style splitter for Python `str.split()` with no separator:
runs of whitespace separate tokens, and empty tokens are dropped. -/
def splitWsAux : List Char → List Char → List (List Char)
  | [], acc => if acc.isEmpty then [] else [acc.reverse]
  | c :: cs, acc =>
    if c.isWhitespace then
      if acc.isEmpty then splitWsAux cs [] else acc.reverse :: splitWsAux cs []
    else splitWsAux cs (c :: acc)

/-- `text.lower().split()` (vector_store.py line 159).  Lowercasing is modelled
per character (ASCII letters), and whitespace is space, tab, CR and LF. -/
def tokenize (text : String) : List String :=
  (splitWsAux (text.data.map Char.toLower) []).map fun cs => String.mk cs

/-- Tokens that survive the `len(word) > 2` filter (vector_store.py line 163). -/
def survivingTokens (text : String) : List String :=
  (tokenize text).filter fun w => 2 < w.length

/-- `word_freq[word] = word_freq.get(word, 0) + 1` on an insertion-ordered
dict, modelled as an association list: an existing key is updated in place,
a new key is appended. -/
def bump (m : List (String × Nat)) (w : String) : List (String × Nat) :=
  match m.lookup w with
  | some n => m.map fun p => if p.1 = w then (p.1, n + 1) else p
  | none => m ++ [(w, 1)]

/-- One iteration of the word loop (vector_store.py 162-164): only words longer
than two characters are counted. -/
def freqStep (m : List (String × Nat)) (w : String) : List (String × Nat) :=
  if 2 < w.length then bump m w else m

/-- The `word_freq` dict after the loop (vector_store.py 160-164). -/
def wordFreq (text : String) : List (String × Nat) :=
  (tokenize text).foldl freqStep []

/-- Non-strict key order used to sort the dict items: lexicographic comparison
of the key strings by character code point, which is how Python compares the
`(str, int)` tuples of `word_freq.items()` (dict keys are unique, so the tuple
order coincides with the order on the string keys alone). -/
def keyLe (a b : String × Nat) : Prop := a.1.data ≤ b.1.data

/-- Strict version of `keyLe`. -/
def keyLt (a b : String × Nat) : Prop := a.1.data < b.1.data

instance : DecidableRel keyLe := fun a b =>
  inferInstanceAs (Decidable (a.1.data ≤ b.1.data))

instance : DecidableRel keyLt := fun a b =>
  inferInstanceAs (Decidable (a.1.data < b.1.data))

instance : IsTotal (String × Nat) keyLe := ⟨fun a b => le_total a.1.data b.1.data⟩

instance : IsTrans (String × Nat) keyLe := ⟨fun _ _ _ h1 h2 => le_trans h1 h2⟩

instance : IsAntisymm (String × Nat) keyLt := ⟨fun _ _ h1 h2 => absurd h2 (lt_asymm h1)⟩

/-- `sorted(word_freq.items())` (vector_store.py line 170). -/
def sortedItems (text : String) : List (String × Nat) :=
  (wordFreq text).insertionSort keyLe

/-- Sparse vector wire format (vector_store.py 175-178): parallel `indices` and
`values` lists.  Values are `float(freq)` for integer term frequencies and are
represented exactly by the frequencies. -/
structure SparseVec where
  indices : List Int
  values : List Nat
deriving DecidableEq, Repr

/-- The sparse vector built for one text (vector_store.py 157-178), with the
per-process Python string hash as the parameter `h`. -/
def sparseVectorize (h : String → Int) (text : String) : SparseVec :=
  { indices := (sortedItems text).map fun p => h p.1 % 100000
    values := (sortedItems text).map fun p => p.2 }

/-! ### Error taxonomy (spec section 7) -/

inductive RagError
  | invalidParameter
  | schemaConflict
  | notFound
  | storageUnavailable
deriving DecidableEq, Repr

instance {ε α : Type} [DecidableEq ε] [DecidableEq α] : DecidableEq (Except ε α) := fun a b =>
  match a, b with
  | .ok x, .ok y =>
    if h : x = y then isTrue (by rw [h]) else isFalse (by intro hh; cases hh; exact h rfl)
  | .error x, .error y =>
    if h : x = y then isTrue (by rw [h]) else isFalse (by intro hh; cases hh; exact h rfl)
  | .ok _, .error _ => isFalse (by intro h; cases h)
  | .error _, .ok _ => isFalse (by intro h; cases h)

/-! ### Collection lifecycle (vector_store.py 43-62) -/

inductive DistanceMetric
  | cosine
  | dot
  | euclid
deriving DecidableEq, Repr

/-- One collection known to the Qdrant server: its name, schema, and how many
points it currently stores. -/
structure CollectionInfo where
  name : String
  denseDim : Nat
  metric : DistanceMetric
  pointsCount : Nat
deriving DecidableEq, Repr

/-- Embeds `QdrantVectorStore._ensure_collection` (vector_store.py 43-62).  The
source compares the configured name against `get_collections()` and calls
`create_collection` with a hardcoded schema (dense size 1536, cosine distance)
only when the name is absent; when the name is present it does nothing — the
existing collection's schema is never inspected. -/
def ensureCollection (state : List CollectionInfo) (name : String) :
    Except RagError (List CollectionInfo) :=
  if name ∈ state.map CollectionInfo.name then .ok state
  else .ok (state ++ [{ name := name, denseDim := 1536, metric := .cosine, pointsCount := 0 }])

/-- Lookup of a collection by name in the server state. -/
def findCollection (state : List CollectionInfo) (name : String) : Option CollectionInfo :=
  state.find? fun c => c.name == name

/-! ### Chunk-splitter construction (vector_store.py 79-84) -/

/-- The splitter object constructed by `add_documents`. -/
structure RecursiveCharacterTextSplitter where
  chunkSize : Nat
  chunkOverlap : Nat
deriving DecidableEq, Repr

/-- Embeds the splitter construction in `add_documents` (vector_store.py 79-84)
together with the parameter validation its text-splitter dependency performs on
construction: langchain's `TextSplitter.__init__` raises `ValueError` — the
spec's `InvalidParameter` — precisely when `chunk_overlap > chunk_size`, and
accepts every other parameter pair. -/
def mkRecursiveCharacterTextSplitter (chunkSize chunkOverlap : Nat) :
    Except RagError RecursiveCharacterTextSplitter :=
  if chunkSize < chunkOverlap then .error .invalidParameter
  else .ok { chunkSize := chunkSize, chunkOverlap := chunkOverlap }

/-! ### Hybrid search (vector_store.py 182-242)

The request construction is embedded from the source.  The Qdrant server that
executes the request is external to the repository, so its behaviour is
modelled from the spec (sections 4.4 and 4.5): per-prefetch filtered ranked
retrieval, reciprocal rank fusion with constant 60, deterministic tie-breaks,
truncation to the request limit.  Float scores are modelled as exact
unnormalized integer fractions. -/

/-- An exact fraction standing in for a float score; `den` is kept positive by
construction. -/
structure Score where
  num : Int
  den : Int
deriving DecidableEq, Repr

/-- Value-level strict order on scores (denominators positive). -/
def scoreLt (a b : Score) : Prop := a.num * b.den < b.num * a.den

/-- Value-level equality on scores (denominators positive). -/
def scoreEqv (a b : Score) : Prop := a.num * b.den = b.num * a.den

instance (a b : Score) : Decidable (scoreLt a b) :=
  inferInstanceAs (Decidable (a.num * b.den < b.num * a.den))

instance (a b : Score) : Decidable (scoreEqv a b) :=
  inferInstanceAs (Decidable (a.num * b.den = b.num * a.den))

/-- Exact addition of fractions, without normalization. -/
def scoreAdd (a b : Score) : Score := ⟨a.num * b.den + b.num * a.den, a.den * b.den⟩

/-- The zero score. -/
def scoreZero : Score := ⟨0, 1⟩

/-- A natural number as a score. -/
def scoreOfNat (n : Nat) : Score := ⟨n, 1⟩

/-- Payload values: the metadata container holds scalar kinds (spec section 9). -/
inductive PValue
  | s (v : String)
  | i (v : Int)
  | b (v : Bool)
deriving DecidableEq, Repr

/-- A Qdrant payload: string keys to scalar values (insertion-ordered). -/
abbrev Payload := List (String × PValue)

/-- A stored point (spec section 3): id, dense vector, sparse vector, payload. -/
structure Point where
  id : String
  dense : List Score
  sparse : SparseVec
  payload : Payload
deriving DecidableEq, Repr

/-- A metadata filter: every listed key must hold the listed value. -/
abbrev MetadataFilter := List (String × PValue)

/-- Whether a payload satisfies a metadata filter. -/
def matchesFilter (f : MetadataFilter) (p : Payload) : Bool :=
  f.all fun kv => p.lookup kv.1 == some kv.2

/-- The query carried by one prefetch branch. -/
inductive PrefetchQuery
  | dense (v : List Score)
  | sparse (v : SparseVec)
deriving DecidableEq, Repr

/-- One `Prefetch(...)` argument of `query_points` (vector_store.py 212-221). -/
structure Prefetch where
  query : PrefetchQuery
  usingVec : String
  limit : Nat
  filter : Option MetadataFilter
deriving DecidableEq, Repr

/-- The whole `query_points` request (vector_store.py 209-227). -/
structure QueryRequest where
  prefetch : List Prefetch
  fusionMode : String
  limit : Nat
  filter : Option MetadataFilter
deriving DecidableEq, Repr

/-- Embeds the request construction inside `hybrid_search` (vector_store.py
209-227): two prefetches with limit `top_k * 2` (dense and sparse), RRF fusion,
outer limit `top_k`.  No filter appears anywhere in the source call, so both
prefetch filters and the request filter are `none`. -/
def buildHybridRequest (queryDense : List Score) (querySparse : SparseVec) (topK : Nat) :
    QueryRequest :=
  { prefetch :=
      [ { query := .dense queryDense, usingVec := "dense", limit := topK * 2, filter := none }
      , { query := .sparse querySparse, usingVec := "sparse", limit := topK * 2, filter := none } ]
    fusionMode := "rrf"
    limit := topK
    filter := none }

/-- Modelled from the spec (section 4.4): total weight a stored sparse vector
assigns to a hash index. -/
def sparseWeightAt (v : SparseVec) (i : Int) : Nat :=
  (((v.indices.zip v.values).filter fun p => p.1 == i).map Prod.snd).sum

/-- Modelled from the spec (section 4.4): sparse overlap score = dot product of
matching (hash-index, weight) pairs. -/
def sparseDot (q v : SparseVec) : Nat :=
  ((q.indices.zip q.values).map fun p => p.2 * sparseWeightAt v p.1).sum

/-- Score of a stored point for one prefetch branch; the dense similarity
(an external embedding metric) is the parameter `dsim`. -/
def prefetchScore (dsim : List Score → List Score → Score) (pf : Prefetch) (pt : Point) : Score :=
  match pf.query with
  | .dense qv => dsim qv pt.dense
  | .sparse qs => scoreOfNat (sparseDot qs pt.sparse)

/-- Whether a point passes both the prefetch filter and the request filter. -/
def passesFilters (pf : Prefetch) (reqF : Option MetadataFilter) (pt : Point) : Bool :=
  (match pf.filter with | some f => matchesFilter f pt.payload | none => true) &&
  (match reqF with | some f => matchesFilter f pt.payload | none => true)

/-- Modelled from the spec (section 4.4): a prefetch ranks the stored points
that pass the filters by descending score (ties broken by insertion order,
which a stable sort preserves) and truncates to the prefetch limit. -/
def runPrefetch (dsim : List Score → List Score → Score) (reqF : Option MetadataFilter)
    (pts : List Point) (pf : Prefetch) : List Point :=
  ((pts.filter (passesFilters pf reqF)).insertionSort
    fun a b => ¬ scoreLt (prefetchScore dsim pf a) (prefetchScore dsim pf b)).take pf.limit

/-- The RRF fusion constant (spec section 4.5, conventional default). -/
def rrfK : Nat := 60

/-- Zero-based rank of an id in a ranked list, if present. -/
def rankIn (l : List Point) (id : String) : Option Nat :=
  (l.map Point.id).findIdx? fun i => i == id

/-- Modelled from the spec (section 4.5 step 3): the RRF contribution of one
list, `1 / (k + rank)` with 1-based rank, zero when the id is absent. -/
def rrfTerm (l : List Point) (id : String) : Score :=
  match rankIn l id with
  | some i => ⟨1, (rrfK : Int) + (i + 1)⟩
  | none => scoreZero

/-- Fused score of a candidate id across all prefetched lists. -/
def fusedScore (lists : List (List Point)) (id : String) : Score :=
  (lists.map fun l => rrfTerm l id).foldl scoreAdd scoreZero

/-- Rank of an id in the dense (first) list, for tie-breaking; ids absent from
the dense list rank below every present id. -/
def denseRankKey (lists : List (List Point)) (id : String) : Nat :=
  match rankIn (lists.headD []) id with
  | some i => i
  | none => (lists.headD []).length

/-- Modelled from the spec (section 4.5 step 4): candidate order — descending
fused score, then better dense rank, then id. -/
def candLe (lists : List (List Point)) (a b : Point × Score) : Prop :=
  scoreLt b.2 a.2 ∨ (scoreEqv a.2 b.2 ∧ (denseRankKey lists a.1.id < denseRankKey lists b.1.id ∨
    (denseRankKey lists a.1.id = denseRankKey lists b.1.id ∧ a.1.id.data ≤ b.1.id.data)))

instance (lists : List (List Point)) : DecidableRel (candLe lists) := fun a b => by
  unfold candLe
  infer_instance

/-- Modelled from the spec (section 4.5 steps 3-5): gather the distinct
candidate ids of all prefetched lists, score each by RRF, sort with the
deterministic tie-break and truncate to the request limit. -/
def fuseLists (lists : List (List Point)) (limit : Nat) : List (Point × Score) :=
  let pool := lists.flatten
  let ids := (pool.map Point.id).dedup
  let cands := ids.filterMap fun i => pool.find? fun p => p.id == i
  ((cands.map fun p => (p, fusedScore lists p.id)).insertionSort (candLe lists)).take limit

/-- Modelled from the spec (sections 4.4-4.5): the backend's `query_points`. -/
def hybridQueryPoints (dsim : List Score → List Score → Score) (pts : List Point)
    (req : QueryRequest) : List (Point × Score) :=
  fuseLists (req.prefetch.map (runPrefetch dsim req.filter pts)) req.limit

/-- One formatted result (vector_store.py 229-239). -/
structure SearchResult where
  id : String
  score : Score
  text : String
  metadata : List (String × PValue)
deriving DecidableEq, Repr

/-- Embeds the result formatting loop (vector_store.py 229-239):
`point.payload.get("text", "")` and the payload minus the `"text"` key. -/
def formatResult (pr : Point × Score) : SearchResult :=
  { id := pr.1.id
    score := pr.2
    text := match pr.1.payload.lookup "text" with
            | some (.s t) => t
            | _ => ""
    metadata := pr.1.payload.filter fun kv => kv.1 != "text" }

/-- Embeds `QdrantVectorStore.hybrid_search` (vector_store.py 182-242).
`dsim` models the backend's dense-similarity metric, `embq` the external
embedder's `embed_query`, `h` the per-process Python string hash, and `pts` the
stored points of the collection.  The source accepts `filter_conditions` but
never mentions it again: the request is built without any filter. -/
def hybrid_search (dsim : List Score → List Score → Score) (embq : String → List Score)
    (h : String → Int) (pts : List Point) (query : String) (topK : Option Nat)
    (filterConditions : Option MetadataFilter) : List SearchResult :=
  let k := match topK with | none => settingsTopKResults | some k => k
  let queryDense := embq query
  let querySparse := sparseVectorize h query
  let req := buildHybridRequest queryDense querySparse k
  (hybridQueryPoints dsim pts req).map formatResult

/-! ### Concrete fixtures used by witnesses and counterexamples -/

/-- A stored point whose payload marks it as belonging to department `"hr"`. -/
def cPoint : Point :=
  { id := "p1", dense := [], sparse := ⟨[], []⟩
    payload := [("text", .s "hello world"), ("dept", .s "hr")] }

/-- A trivial dense similarity metric. -/
def cDsim : List Score → List Score → Score := fun _ _ => scoreZero

/-- A trivial query embedder. -/
def cEmb : String → List Score := fun _ => []

/-- A concrete stand-in for one process's string hash. -/
def cHash : String → Int := fun _ => 0

end EnterpriseRag


namespace EnterpriseRag

/-! ### Lemmas about the word-frequency dict -/

theorem lookup_append_of_none (m₁ m₂ : List (String × Nat)) (w : String)
    (h : m₁.lookup w = none) : (m₁ ++ m₂).lookup w = m₂.lookup w := by
  induction m₁ with
  | nil => simp
  | cons p ps ih =>
    obtain ⟨k, v⟩ := p
    by_cases hw : w = k
    · subst hw; simp [List.lookup] at h
    · have hb : (w == k) = false := beq_eq_false_iff_ne.mpr hw
      simp only [List.lookup, hb] at h
      simp only [List.cons_append, List.lookup, hb]
      exact ih h

theorem lookup_append_of_some (m₁ m₂ : List (String × Nat)) (w : String) (v : Nat)
    (h : m₁.lookup w = some v) : (m₁ ++ m₂).lookup w = some v := by
  induction m₁ with
  | nil => simp [List.lookup] at h
  | cons p ps ih =>
    obtain ⟨k, u⟩ := p
    by_cases hw : w = k
    · subst hw
      simp only [List.lookup, beq_self_eq_true] at h
      simp only [List.cons_append, List.lookup, beq_self_eq_true]
      exact h
    · have hb : (w == k) = false := beq_eq_false_iff_ne.mpr hw
      simp only [List.lookup, hb] at h
      simp only [List.cons_append, List.lookup, hb]
      exact ih h

theorem lookup_map_update (m : List (String × Nat)) (w : String) (n : Nat) (q : String) :
    (m.map fun p => if p.1 = w then (p.1, n) else p).lookup q =
      if q = w then (m.lookup q).map fun _ => n else m.lookup q := by
  induction m with
  | nil => simp [List.lookup]
  | cons p ps ih =>
    obtain ⟨k, v⟩ := p
    simp only [List.map_cons]
    by_cases hk : k = w
    · rw [if_pos hk]
      by_cases hq : q = k
      · subst hq
        rw [if_pos hk]
        simp [List.lookup]
      · have hb : (q == k) = false := beq_eq_false_iff_ne.mpr hq
        simp only [List.lookup, hb, ih]
    · rw [if_neg hk]
      by_cases hq : q = k
      · subst hq
        rw [if_neg hk]
        simp [List.lookup]
      · have hb : (q == k) = false := beq_eq_false_iff_ne.mpr hq
        simp only [List.lookup, hb, ih]

theorem lookup_bump_self (m : List (String × Nat)) (w : String) :
    (bump m w).lookup w = some ((m.lookup w).getD 0 + 1) := by
  unfold bump
  cases h : m.lookup w with
  | none =>
    rw [lookup_append_of_none m _ w h]
    simp [List.lookup]
  | some n =>
    rw [lookup_map_update m w (n + 1) w, if_pos rfl, h]
    rfl

theorem lookup_bump_ne (m : List (String × Nat)) (w q : String) (hq : q ≠ w) :
    (bump m w).lookup q = m.lookup q := by
  unfold bump
  cases h : m.lookup w with
  | none =>
    cases hqq : m.lookup q with
    | some v => rw [lookup_append_of_some m _ q v hqq]
    | none =>
      rw [lookup_append_of_none m _ q hqq]
      simp [List.lookup, beq_eq_false_iff_ne.mpr hq]
  | some n =>
    rw [lookup_map_update m w (n + 1) q, if_neg hq]

theorem keys_bump_some (m : List (String × Nat)) (w : String) (n : Nat)
    (h : m.lookup w = some n) : (bump m w).map Prod.fst = m.map Prod.fst := by
  unfold bump
  rw [h, List.map_map]
  apply List.map_congr_left
  intro p _
  by_cases hc : p.1 = w <;> simp [Function.comp, hc]

theorem keys_bump_none (m : List (String × Nat)) (w : String)
    (h : m.lookup w = none) : (bump m w).map Prod.fst = m.map Prod.fst ++ [w] := by
  unfold bump
  rw [h, List.map_append]
  rfl

theorem lookup_none_iff (m : List (String × Nat)) (w : String) :
    m.lookup w = none ↔ w ∉ m.map Prod.fst := by
  induction m with
  | nil => simp [List.lookup]
  | cons p ps ih =>
    obtain ⟨k, v⟩ := p
    by_cases hw : w = k
    · subst hw; simp [List.lookup]
    · simp [List.lookup, beq_eq_false_iff_ne.mpr hw, ih, hw]

theorem keys_freqStep_nodup (m : List (String × Nat)) (w : String)
    (h : (m.map Prod.fst).Nodup) : ((freqStep m w).map Prod.fst).Nodup := by
  unfold freqStep
  split
  · cases hm : m.lookup w with
    | some n => rw [keys_bump_some m w n hm]; exact h
    | none =>
      rw [keys_bump_none m w hm]
      refine (List.nodup_append).mpr ⟨h, List.nodup_singleton w, ?_⟩
      intro a ha hb
      rw [List.mem_singleton] at hb
      subst hb
      exact (lookup_none_iff m a).mp hm ha
  · exact h

theorem foldl_freqStep_keys_nodup (ws : List String) (m : List (String × Nat))
    (h : (m.map Prod.fst).Nodup) : ((ws.foldl freqStep m).map Prod.fst).Nodup := by
  induction ws generalizing m with
  | nil => exact h
  | cons t ts ih => exact ih _ (keys_freqStep_nodup m t h)

theorem wordFreq_keys_nodup (text : String) : ((wordFreq text).map Prod.fst).Nodup :=
  foldl_freqStep_keys_nodup _ [] (by simp)

theorem foldl_freqStep_lookup (ws : List String) (m : List (String × Nat)) (w : String) :
    (ws.foldl freqStep m).lookup w =
      if 2 < w.length ∧ w ∈ ws then some ((m.lookup w).getD 0 + ws.count w) else m.lookup w := by
  induction ws generalizing m with
  | nil => simp
  | cons t ts ih =>
    simp only [List.foldl_cons]
    rw [ih (freqStep m t)]
    by_cases hw : 2 < w.length
    · by_cases htw : t = w
      · subst htw
        have hb : freqStep m t = bump m t := by unfold freqStep; rw [if_pos hw]
        by_cases hts : t ∈ ts
        · rw [if_pos ⟨hw, hts⟩, if_pos ⟨hw, List.mem_cons_self t ts⟩, hb, lookup_bump_self,
            List.count_cons_self]
          simp only [Option.getD_some]
          congr 1
          omega
        · rw [if_neg (by simp [hts]), if_pos ⟨hw, List.mem_cons_self t ts⟩, hb, lookup_bump_self,
            List.count_cons_self, List.count_eq_zero_of_not_mem hts]
      · have hwt : w ≠ t := fun hh => htw hh.symm
        have hlk : (freqStep m t).lookup w = m.lookup w := by
          unfold freqStep
          split
          · exact lookup_bump_ne m t w hwt
          · rfl
        rw [hlk, List.count_cons_of_ne hwt]
        have hmem : (w ∈ t :: ts) ↔ (w ∈ ts) := by simp [List.mem_cons, hwt]
        by_cases hts : w ∈ ts
        · rw [if_pos ⟨hw, hts⟩, if_pos ⟨hw, hmem.mpr hts⟩]
        · rw [if_neg (by simp [hts]), if_neg (by simp [hw, hmem, hts])]
    · have hlk : (freqStep m t).lookup w = m.lookup w := by
        unfold freqStep
        split
        · rename_i hts
          exact lookup_bump_ne m t w (fun hh => hw (hh ▸ hts))
        · rfl
      rw [hlk, if_neg (by simp [hw]), if_neg (by simp [hw])]

theorem wordFreq_lookup (text : String) (w : String) :
    (wordFreq text).lookup w =
      if 2 < w.length ∧ w ∈ tokenize text then some ((tokenize text).count w) else none := by
  unfold wordFreq
  rw [foldl_freqStep_lookup]
  simp [List.lookup]

theorem mem_iff_lookup (m : List (String × Nat)) (h : (m.map Prod.fst).Nodup)
    (w : String) (n : Nat) : (w, n) ∈ m ↔ m.lookup w = some n := by
  induction m with
  | nil => simp [List.lookup]
  | cons p ps ih =>
    obtain ⟨k, v⟩ := p
    simp only [List.map_cons, List.nodup_cons] at h
    by_cases hw : w = k
    · subst hw
      simp only [List.mem_cons, List.lookup, beq_self_eq_true]
      constructor
      · rintro (h1 | h1)
        · rw [(Prod.mk.injEq _ _ _ _).mp h1 |>.2]
        · exact absurd (List.mem_map_of_mem Prod.fst h1) h.1
      · intro h1
        left
        rw [Prod.mk.injEq]
        exact ⟨rfl, (Option.some_inj.mp h1).symm⟩
    · have hb : (w == k) = false := beq_eq_false_iff_ne.mpr hw
      simp only [List.mem_cons, List.lookup, hb]
      rw [← ih h.2]
      simp [Prod.ext_iff, hw]

theorem mem_wordFreq_iff (text : String) (w : String) (n : Nat) :
    (w, n) ∈ wordFreq text ↔
      (2 < w.length ∧ w ∈ tokenize text ∧ n = (tokenize text).count w) := by
  rw [mem_iff_lookup _ (wordFreq_keys_nodup text), wordFreq_lookup]
  by_cases h1 : 2 < w.length ∧ w ∈ tokenize text
  · simp only [if_pos h1, Option.some_inj]
    constructor
    · intro h2
      exact ⟨h1.1, h1.2, h2.symm⟩
    · intro h2
      exact h2.2.2.symm
  · simp only [if_neg h1]
    constructor
    · intro h2
      cases h2
    · intro h2
      exact absurd ⟨h2.1, h2.2.1⟩ h1

/-! ### Lemmas about the sorted items -/

theorem sortedItems_perm (text : String) : (sortedItems text).Perm (wordFreq text) :=
  List.perm_insertionSort keyLe (wordFreq text)

theorem mem_sortedItems_iff (text : String) (w : String) (n : Nat) :
    (w, n) ∈ sortedItems text ↔
      (2 < w.length ∧ w ∈ tokenize text ∧ n = (tokenize text).count w) := by
  rw [(sortedItems_perm text).mem_iff, mem_wordFreq_iff]

theorem sortedItems_keys_nodup (text : String) : ((sortedItems text).map Prod.fst).Nodup :=
  ((sortedItems_perm text).map Prod.fst).nodup_iff.mpr (wordFreq_keys_nodup text)

theorem sortedItems_pairwise_lt (text : String) : (sortedItems text).Pairwise keyLt := by
  have h1 : (sortedItems text).Pairwise keyLe := List.sorted_insertionSort keyLe (wordFreq text)
  have h2 : (sortedItems text).Pairwise (fun a b : String × Nat => a.1 ≠ b.1) :=
    List.pairwise_map.mp (sortedItems_keys_nodup text)
  refine (h1.and h2).imp ?_
  rintro ⟨a1, a2⟩ ⟨b1, b2⟩ ⟨hle, hne⟩
  exact lt_of_le_of_ne hle fun hd => hne (String.ext hd)

theorem tokenize_mem_surviving_iff (t : String) (w : String) (hw : 2 < w.length) :
    w ∈ tokenize t ↔ w ∈ survivingTokens t := by
  unfold survivingTokens
  simp [List.mem_filter, hw]

theorem tokenize_count_surviving (t : String) (w : String) (hw : 2 < w.length) :
    (tokenize t).count w = (survivingTokens t).count w := by
  unfold survivingTokens
  rw [List.count_filter (by simpa using hw)]

theorem wordFreq_lookup_eq_of_surviving_perm {t₁ t₂ : String}
    (hp : (survivingTokens t₁).Perm (survivingTokens t₂)) (w : String) :
    (wordFreq t₁).lookup w = (wordFreq t₂).lookup w := by
  rw [wordFreq_lookup, wordFreq_lookup]
  by_cases hw : 2 < w.length
  · have hmem : (w ∈ tokenize t₁) ↔ (w ∈ tokenize t₂) := by
      rw [tokenize_mem_surviving_iff t₁ w hw, tokenize_mem_surviving_iff t₂ w hw, hp.mem_iff]
    by_cases hm : w ∈ tokenize t₁
    · rw [if_pos ⟨hw, hm⟩, if_pos ⟨hw, hmem.mp hm⟩, tokenize_count_surviving t₁ w hw,
        tokenize_count_surviving t₂ w hw, hp.count_eq]
    · rw [if_neg (fun hc => hm hc.2), if_neg (fun hc => hm (hmem.mpr hc.2))]
  · rw [if_neg (by simp [hw]), if_neg (by simp [hw])]

theorem wordFreq_perm_of_surviving_perm {t₁ t₂ : String}
    (hp : (survivingTokens t₁).Perm (survivingTokens t₂)) :
    (wordFreq t₁).Perm (wordFreq t₂) := by
  rw [List.perm_ext_iff_of_nodup ((wordFreq_keys_nodup t₁).of_map Prod.fst)
    ((wordFreq_keys_nodup t₂).of_map Prod.fst)]
  rintro ⟨w, n⟩
  rw [mem_iff_lookup _ (wordFreq_keys_nodup t₁), mem_iff_lookup _ (wordFreq_keys_nodup t₂),
    wordFreq_lookup_eq_of_surviving_perm hp]

theorem sortedItems_eq_of_surviving_perm {t₁ t₂ : String}
    (hp : (survivingTokens t₁).Perm (survivingTokens t₂)) :
    sortedItems t₁ = sortedItems t₂ := by
  apply List.eq_of_perm_of_sorted (r := keyLt)
  · exact ((sortedItems_perm t₁).trans (wordFreq_perm_of_surviving_perm hp)).trans
      (sortedItems_perm t₂).symm
  · exact sortedItems_pairwise_lt t₁
  · exact sortedItems_pairwise_lt t₂

/-! ### Claim theorems: sparse vectorizer -/

/-- C7: for every text, the sparse vectorizer lowercases the text, tokenizes on
whitespace, discards every token of length at most 2, and assigns to each
surviving distinct token a weight equal to its raw occurrence count in the
text, with no other tokens contributing entries.  (The lowercasing and
whitespace tokenization are embodied in `tokenize`; the item list characterized
here is exactly the list from which `sparseVectorize` emits its parallel
`indices`/`values` entries, as the second conjunct states.) -/
theorem sparse_weights_are_term_counts (h : String → Int) (text : String)
    (w : String) (n : Nat) :
    ((w, n) ∈ sortedItems text ↔
      (2 < w.length ∧ w ∈ tokenize text ∧ n = (tokenize text).count w)) ∧
    (sparseVectorize h text).indices.zip (sparseVectorize h text).values
      = (sortedItems text).map fun p => (h p.1 % 100000, p.2) :=
  ⟨mem_sortedItems_iff text w n, List.zip_map' _ _ _⟩

/-- C3 (counterexample): the sparse vectorizer is NOT deterministic across runs
of the program.  Python's string hash is salted per process; modelling the two
runs' hashes as two functions, identical text can yield different
SparseVectors. -/
theorem sparse_cross_run_deterministic_refuted :
    ¬ ∀ (h₁ h₂ : String → Int) (text : String),
        sparseVectorize h₁ text = sparseVectorize h₂ text := by
  intro hall
  have h := hall (fun _ => 0) (fun _ => 1) "abc"
  have h0 : (sparseVectorize (fun _ => 0) "abc").indices = [0] := by decide
  have h1 : (sparseVectorize (fun _ => 1) "abc").indices = [1] := by decide
  rw [h] at h0
  rw [h1] at h0
  cases h0

/-- C3 (amended): the sparse vectorizer is deterministic relative to the
per-process string hash: whenever the hash functions of two invocations agree
on the tokens of the text (in particular, always within one process run),
identical text yields an identical SparseVector.  Across runs the salted hash
may differ, and then so may the indices. -/
theorem sparse_deterministic_given_hash (h₁ h₂ : String → Int) (text : String)
    (hagree : ∀ w ∈ (sortedItems text).map Prod.fst, h₁ w = h₂ w) :
    sparseVectorize h₁ text = sparseVectorize h₂ text := by
  unfold sparseVectorize
  congr 1
  apply List.map_congr_left
  intro p hp
  rw [hagree p.1 (List.mem_map_of_mem Prod.fst hp)]

/-- C3 (witness for the amended theorem): two hash functions that agree on the
single token of `"aaa"` produce the same SparseVector for it. -/
theorem sparse_deterministic_given_hash_holds :
    (∀ w ∈ (sortedItems "aaa").map Prod.fst, (fun _ : String => (5 : Int)) w
        = (fun w : String => (w.length : Int) + 2) w) ∧
    sparseVectorize (fun _ => (5 : Int)) "aaa"
      = sparseVectorize (fun w => (w.length : Int) + 2) "aaa" :=
  ⟨by decide, sparse_deterministic_given_hash _ _ "aaa" (by decide)⟩

/-- C8 (counterexample): the indices of a generated SparseVector are NOT always
pairwise distinct: the per-token hashes are taken modulo 100000 and collisions
between distinct tokens produce duplicate indices.  Modelling the process hash
as a function, a colliding hash yields the index list `[0, 0]`. -/
theorem sparse_indices_nodup_refuted :
    ¬ ∀ (h : String → Int) (text : String), (sparseVectorize h text).indices.Nodup := by
  intro hall
  have h := hall (fun _ => 0) "aaa bbb"
  have h0 : (sparseVectorize (fun _ => 0) "aaa bbb").indices = [0, 0] := by decide
  rw [h0] at h
  exact absurd h (by decide)

/-- C8 (amended): the vector has exactly one entry per distinct surviving
token — the token keys behind the entries are pairwise distinct — and the
term-hash indices are pairwise distinct whenever the hash values modulo 100000
of those tokens are pairwise distinct; only hash collisions can duplicate an
index. -/
theorem sparse_indices_nodup_of_hash_nodup (h : String → Int) (text : String) :
    ((sortedItems text).map Prod.fst).Nodup ∧
    (((sortedItems text).map Prod.fst).Pairwise (fun a b => h a % 100000 ≠ h b % 100000) →
      (sparseVectorize h text).indices.Nodup) := by
  refine ⟨sortedItems_keys_nodup text, fun hp => ?_⟩
  show ((sortedItems text).map fun p => h p.1 % 100000).Nodup
  have : ((sortedItems text).map fun p => h p.1 % 100000)
      = ((sortedItems text).map Prod.fst).map fun w => h w % 100000 := by
    rw [List.map_map]
    rfl
  rw [this]
  exact List.pairwise_map.mpr hp

/-- C8 (witness for the amended theorem): with a hash whose values differ on
the two tokens of `"aaa bbbb"`, the emitted indices are pairwise distinct. -/
theorem sparse_indices_nodup_of_hash_nodup_holds :
    ((sortedItems "aaa bbbb").map Prod.fst).Pairwise
      (fun a b => (fun w : String => (w.length : Int)) a % 100000
        ≠ (fun w : String => (w.length : Int)) b % 100000) ∧
    (sparseVectorize (fun w => (w.length : Int)) "aaa bbbb").indices.Nodup :=
  ⟨by decide,
    (sparse_indices_nodup_of_hash_nodup (fun w => (w.length : Int)) "aaa bbbb").2 (by decide)⟩

/-- C10: the (index, value) pairs of a generated SparseVector are emitted in
ascending lexicographic order of the underlying token string (first conjunct:
the token keys behind consecutive entries are strictly increasing in code-point
lexicographic order), not in order of first occurrence; consequently the
positional order of `indices` and `values` depends only on the multiset of
surviving tokens — any two texts with the same surviving tokens and counts
yield identical SparseVectors (second conjunct). -/
theorem sparse_pairs_sorted_canonically (h : String → Int) (t₁ t₂ : String) :
    ((sortedItems t₁).map Prod.fst).Pairwise (fun a b => a.data < b.data) ∧
    ((survivingTokens t₁).Perm (survivingTokens t₂) →
      sparseVectorize h t₁ = sparseVectorize h t₂) := by
  constructor
  · exact List.pairwise_map.mpr (sortedItems_pairwise_lt t₁)
  · intro hp
    unfold sparseVectorize
    rw [sortedItems_eq_of_surviving_perm hp]

/-- C10 (witness): two texts with the same surviving tokens in different
order produce the identical SparseVector. -/
theorem sparse_pairs_sorted_canonically_holds :
    (survivingTokens "bbb aaa").Perm (survivingTokens "aaa bbb") ∧
    sparseVectorize (fun _ => 0) "bbb aaa" = sparseVectorize (fun _ => 0) "aaa bbb" :=
  ⟨by decide, (sparse_pairs_sorted_canonically (fun _ => 0) "bbb aaa" "aaa bbb").2 (by decide)⟩

/-! ### Claim theorems: collection lifecycle -/

/-- C2 (counterexample): re-invoking ensure_collection for an existing name
whose schema conflicts with the fixed creation parameters (dense dim 1536,
cosine) does NOT fail with SchemaConflict: with an existing `"kb"` collection
of dense dim 768 the call silently succeeds as a no-op. -/
theorem ensureCollection_conflict_silent_noop :
    ensureCollection [⟨"kb", 768, .cosine, 0⟩] "kb" = .ok [⟨"kb", 768, .cosine, 0⟩] ∧
    ensureCollection [⟨"kb", 768, .cosine, 0⟩] "kb" ≠ .error .schemaConflict := by
  constructor
  · decide
  · intro h
    rw [show ensureCollection [⟨"kb", 768, .cosine, 0⟩] "kb"
        = .ok [⟨"kb", 768, .cosine, 0⟩] from by decide] at h
    cases h

theorem ensureCollection_noop_of_mem (st : List CollectionInfo) (name : String)
    (hmem : name ∈ st.map CollectionInfo.name) : ensureCollection st name = .ok st := by
  unfold ensureCollection
  rw [if_pos hmem]

/-- C2 (amended): `_ensure_collection` checks only the collection NAME: when a
collection of the configured name already exists the call is a silent no-op
that returns the state unchanged, regardless of how the existing collection's
dimensionality or distance metric compare to the fixed creation parameters;
no SchemaConflict error exists in the code path. -/
theorem ensureCollection_existing_noop (st : List CollectionInfo) (name : String)
    (hmem : name ∈ st.map CollectionInfo.name) : ensureCollection st name = .ok st :=
  ensureCollection_noop_of_mem st name hmem

/-- C2 (witness for the amended theorem): applied to an existing `"kb"`
collection with a conflicting dense dim of 768. -/
theorem ensureCollection_existing_noop_holds :
    "kb" ∈ ([⟨"kb", 768, DistanceMetric.cosine, 0⟩] : List CollectionInfo).map
      CollectionInfo.name ∧
    ensureCollection [⟨"kb", 768, .cosine, 0⟩] "kb" = .ok [⟨"kb", 768, .cosine, 0⟩] :=
  ⟨by decide, ensureCollection_existing_noop _ _ (by decide)⟩

/-- C5: ensure_collection is idempotent — after any successful call, invoking
it again for the same name succeeds and leaves the server state (and therefore
every collection's point count, in particular the point count visible through
`findCollection`) unchanged. -/
theorem ensureCollection_idempotent (st st₂ : List CollectionInfo) (name : String)
    (h : ensureCollection st name = .ok st₂) :
    ensureCollection st₂ name = .ok st₂ ∧
    ∀ st₃, ensureCollection st₂ name = .ok st₃ →
      (findCollection st₃ name).map CollectionInfo.pointsCount
        = (findCollection st₂ name).map CollectionInfo.pointsCount := by
  have hmem : name ∈ st₂.map CollectionInfo.name := by
    unfold ensureCollection at h
    split at h
    · cases h
      rename_i hm
      exact hm
    · cases h
      simp
  refine ⟨ensureCollection_noop_of_mem st₂ name hmem, ?_⟩
  intro st₃ h₃
  rw [ensureCollection_noop_of_mem st₂ name hmem] at h₃
  cases h₃
  rfl

/-- C5 (witness): creating `"kb"` in an empty server then re-invoking. -/
theorem ensureCollection_idempotent_holds :
    ensureCollection [⟨"kb", 1536, .cosine, 0⟩] "kb" = .ok [⟨"kb", 1536, .cosine, 0⟩] ∧
    ∀ st₃, ensureCollection [⟨"kb", 1536, .cosine, 0⟩] "kb" = .ok st₃ →
      (findCollection st₃ "kb").map CollectionInfo.pointsCount
        = (findCollection [⟨"kb", 1536, DistanceMetric.cosine, 0⟩] "kb").map
            CollectionInfo.pointsCount :=
  ensureCollection_idempotent [] [⟨"kb", 1536, .cosine, 0⟩] "kb" (by decide)

/-! ### Claim theorems: chunk splitting parameters -/

/-- C4 (counterexample): it is NOT the case that every parameter pair with
overlap ≥ chunk_size is rejected: the boundary pair overlap = chunk_size = 1000
satisfies overlap ≥ chunk_size yet the splitter is constructed successfully —
the dependency's check rejects only a strictly larger overlap. -/
theorem splitter_overlap_eq_size_accepted :
    ¬ ∀ (cs co : Nat), cs ≤ co →
        ∃ e, mkRecursiveCharacterTextSplitter cs co = .error e := by
  intro hall
  obtain ⟨e, he⟩ := hall 1000 1000 (le_refl 1000)
  rw [show mkRecursiveCharacterTextSplitter 1000 1000 = .ok ⟨1000, 1000⟩ from by decide] at he
  cases he

/-- C4 (amended): splitting fails with InvalidParameter exactly when
overlap > chunk_size (strictly); overlap = chunk_size and every smaller
overlap are accepted. -/
theorem splitter_invalidParameter_iff (cs co : Nat) :
    mkRecursiveCharacterTextSplitter cs co = .error .invalidParameter ↔ cs < co := by
  unfold mkRecursiveCharacterTextSplitter
  split
  · rename_i hlt
    simp [hlt]
  · rename_i hge
    simp [hge]

/-! ### Lemmas about the hybrid search pipeline -/

theorem length_hybridQueryPoints_le (dsim : List Score → List Score → Score)
    (pts : List Point) (req : QueryRequest) :
    (hybridQueryPoints dsim pts req).length ≤ req.limit := by
  simp only [hybridQueryPoints, fuseLists]
  exact List.length_take_le _ _

theorem mem_pts_of_mem_runPrefetch {dsim : List Score → List Score → Score}
    {reqF : Option MetadataFilter} {pts : List Point} {pf : Prefetch} {p : Point}
    (h : p ∈ runPrefetch dsim reqF pts pf) : p ∈ pts := by
  unfold runPrefetch at h
  exact List.mem_of_mem_filter ((List.perm_insertionSort _ _).mem_iff.mp (List.take_subset _ _ h))

theorem exists_list_of_mem_fuseLists {lists : List (List Point)} {limit : Nat}
    {pr : Point × Score} (h : pr ∈ fuseLists lists limit) : ∃ l ∈ lists, pr.1 ∈ l := by
  simp only [fuseLists] at h
  have h1 := List.take_subset _ _ h
  have h2 := (List.perm_insertionSort _ _).mem_iff.mp h1
  obtain ⟨p, hp, hpe⟩ := List.mem_map.mp h2
  obtain ⟨i, hi, hfind⟩ := List.mem_filterMap.mp hp
  obtain ⟨l, hl, hpl⟩ := List.mem_flatten.mp (List.mem_of_find?_eq_some hfind)
  cases hpe
  exact ⟨l, hl, hpl⟩

/-! ### Claim theorems: hybrid search -/

/-- C1: the claim that the metadata filter is pushed down to both the dense and
the sparse retrieval is FALSE of the code: `hybrid_search` accepts
`filter_conditions` but never threads it into the request, so (first conjunct)
the output is entirely independent of the filter argument, and (remaining
conjuncts, the failing input) a stored point whose payload fails the requested
filter is nevertheless returned in the fused output. -/
theorem hybridSearch_ignores_filter :
    (∀ (dsim : List Score → List Score → Score) (embq : String → List Score)
        (h : String → Int) (pts : List Point) (q : String) (topK : Option Nat)
        (f₁ f₂ : Option MetadataFilter),
        hybrid_search dsim embq h pts q topK f₁ = hybrid_search dsim embq h pts q topK f₂) ∧
    matchesFilter [("dept", .s "eng")] cPoint.payload = false ∧
    (hybrid_search cDsim cEmb cHash [cPoint] "query" (some 2)
        (some [("dept", .s "eng")])).map SearchResult.id = ["p1"] :=
  ⟨fun _ _ _ _ _ _ _ _ => rfl, by decide, by decide⟩

/-- C6: for every query and top_k (including the defaulted `top_k = None`,
which resolves to the configured 5), hybrid_search issues a request whose dense
and sparse prefetches each ask for `2 * top_k` candidates, fuses them with RRF,
and returns at most `top_k` results. -/
theorem hybridSearch_overfetch_and_topk (dsim : List Score → List Score → Score)
    (embq : String → List Score) (h : String → Int) (pts : List Point) (q : String)
    (topK : Option Nat) (fc : Option MetadataFilter) :
    (buildHybridRequest (embq q) (sparseVectorize h q)
        (topK.getD settingsTopKResults)).prefetch.map Prefetch.limit
      = [2 * topK.getD settingsTopKResults, 2 * topK.getD settingsTopKResults] ∧
    (buildHybridRequest (embq q) (sparseVectorize h q)
        (topK.getD settingsTopKResults)).fusionMode = "rrf" ∧
    (buildHybridRequest (embq q) (sparseVectorize h q)
        (topK.getD settingsTopKResults)).limit = topK.getD settingsTopKResults ∧
    (hybrid_search dsim embq h pts q topK fc).length ≤ topK.getD settingsTopKResults := by
  refine ⟨?_, rfl, rfl, ?_⟩
  · simp [buildHybridRequest, Nat.mul_comm]
  · cases topK with
    | none =>
      simp only [hybrid_search, Option.getD_none]
      rw [List.length_map]
      exact length_hybridQueryPoints_le _ _ _
    | some k =>
      simp only [hybrid_search, Option.getD_some]
      rw [List.length_map]
      exact length_hybridQueryPoints_le _ _ _

/-- C9: every SearchResult returned by hybrid_search originates from a stored
point and carries a metadata mapping equal to that point's payload with exactly
the `"text"` field removed: no `"text"` key ever appears in the metadata, and a
(key, value) pair is in the metadata precisely when it is in the stored payload
with a key other than `"text"`. -/
theorem hybridSearch_metadata_excludes_text (dsim : List Score → List Score → Score)
    (embq : String → List Score) (h : String → Int) (pts : List Point) (q : String)
    (topK : Option Nat) (fc : Option MetadataFilter) (r : SearchResult)
    (hr : r ∈ hybrid_search dsim embq h pts q topK fc) :
    ∃ p ∈ pts, r.id = p.id ∧ ("text" ∉ r.metadata.map Prod.fst) ∧
      ∀ k v, (k, v) ∈ r.metadata ↔ ((k, v) ∈ p.payload ∧ k ≠ "text") := by
  simp only [hybrid_search] at hr
  obtain ⟨pr, hpr, hre⟩ := List.mem_map.mp hr
  obtain ⟨l, hl, hp⟩ :=
    exists_list_of_mem_fuseLists (show pr ∈ fuseLists _ _ from hpr)
  obtain ⟨pf, hpf, hle⟩ := List.mem_map.mp hl
  cases hle
  have hpts : pr.1 ∈ pts := mem_pts_of_mem_runPrefetch hp
  cases hre
  refine ⟨pr.1, hpts, rfl, ?_, ?_⟩
  · simp only [formatResult]
    intro hmem
    obtain ⟨⟨k, v⟩, hkv, hk⟩ := List.mem_map.mp hmem
    have h2 := (List.mem_filter.mp hkv).2
    simp only [bne_iff_ne, ne_eq] at h2
    exact h2 hk
  · intro k v
    simp only [formatResult]
    rw [List.mem_filter]
    constructor
    · rintro ⟨h1, h2⟩
      exact ⟨h1, by simpa using h2⟩
    · rintro ⟨h1, h2⟩
      exact ⟨h1, by simpa using h2⟩

/-- C9 (witness): for a one-point store, the single result of a concrete search
carries the stored payload minus its `"text"` field. -/
theorem hybridSearch_metadata_excludes_text_holds :
    ∃ p ∈ [cPoint],
      (⟨"p1", ⟨122, 3721⟩, "hello world", [("dept", PValue.s "hr")]⟩ : SearchResult).id = p.id ∧
      ("text" ∉ (⟨"p1", ⟨122, 3721⟩, "hello world",
          [("dept", PValue.s "hr")]⟩ : SearchResult).metadata.map Prod.fst) ∧
      ∀ k v, (k, v) ∈ (⟨"p1", ⟨122, 3721⟩, "hello world",
          [("dept", PValue.s "hr")]⟩ : SearchResult).metadata
        ↔ ((k, v) ∈ p.payload ∧ k ≠ "text") :=
  hybridSearch_metadata_excludes_text cDsim cEmb cHash [cPoint] "query" (some 2) none _ (by decide)

end EnterpriseRag
